import Mathlib

/-!
Verification of `mitiq/calibration/settings.py`: the configuration model for
quantum-error-mitigation calibration experiments (`MitigationTechnique`,
`BenchmarkProblem`, `Strategy`, `Settings`).

The Python module is shallowly embedded:
* Python dictionaries become association lists with Python insertion/update
  semantics (`lookupD`, `insertD`, `containsKeyD`, `eraseKeyD`);
* raised exceptions become `Except PyError` results; the in-place mutation of
  `Settings.problem_dict` / `Settings.strategy_dict` performed by
  `make_problems` / `make_strategies` is made explicit by returning the
  updated `Settings` alongside the result (the state returned with an error
  reflects the mutations done before the exception was raised, exactly as the
  Python object keeps them);
* external collaborators (circuit generators, the mitigation execution
  functions, folding functions and extrapolation factories) are opaque
  parameters, modelled only through the interface the module uses.
-/

/-! Section: Python dictionaries as association lists -/

/-- Python `d[k]` / `d.get(k)`: first binding of key `k`, if any. -/
def lookupD [DecidableEq α] : List (α × β) → α → Option β
  | [], _ => none
  | (k', v) :: rest, k => if k' = k then some v else lookupD rest k

/-- Python `d[k] = v`: update the value in place if the key is present,
otherwise append the new binding at the end (insertion order). -/
def insertD [DecidableEq α] : List (α × β) → α → β → List (α × β)
  | [], k, v => [(k, v)]
  | (k', v') :: rest, k, v =>
    if k' = k then (k', v) :: rest else (k', v') :: insertD rest k v

/-- Python `k in d`. -/
def containsKeyD [DecidableEq α] (d : List (α × β)) (k : α) : Bool :=
  d.any (fun p => decide (p.1 = k))

/-- Python `del d[k]` (on a dict whose keys are unique this removes the one
binding for `k`; the `KeyError` raised when `k` is absent is modelled at the
call sites). -/
def eraseKeyD [DecidableEq α] (d : List (α × β)) (k : α) : List (α × β) :=
  d.filter (fun p => !(decide (p.1 = k)))

/-! Section: Python exceptions raised by the module -/

/-- The exceptions this module can raise: `NotImplementedError` and
`ValueError` with their messages, `KeyError` (string key, or the integer key
of `Settings.get_strategy`), `IndexError` (from `[0]` on an empty list), and
a `TypeError`-like failure for attribute access on a wrongly-typed value. -/
inductive PyError where
  | notImplementedError (msg : String)
  | valueError (msg : String)
  | keyError (key : String)
  | keyErrorNat (key : Nat)
  | indexError
  | typeError
deriving DecidableEq

def PyError.isNotImplementedError : PyError → Bool
  | .notImplementedError _ => true
  | _ => false

def PyError.isValueError : PyError → Bool
  | .valueError _ => true
  | _ => false

/-- Whether an `Except` result is a raised `NotImplementedError`. -/
def raisedNotImplementedError : Except PyError α → Bool
  | .error e => e.isNotImplementedError
  | .ok _ => false

/-- Whether an `Except` result is a raised `ValueError`. -/
def raisedValueError : Except PyError α → Bool
  | .error e => e.isValueError
  | .ok _ => false

/-! Section: The circuit model

`cirq.Circuit` is opaque to this module except for the three metrics
`BenchmarkProblem` derives from it: `all_qubits` (the set of qubits touched),
`len(circuit)` (the number of moments) and `all_operations` (the flattened
operation list, each operation acting on a tuple of qubits).  A circuit is
therefore embedded as a list of moments, each a list of operations, each an
operation over a list of qubit identifiers. -/

abbrev Qubit := Nat

structure Operation where
  qubits : List Qubit
deriving DecidableEq

structure Moment where
  operations : List Operation
deriving DecidableEq

structure Circuit where
  moments : List Moment
deriving DecidableEq

/-- Source `circuit.all_operations()`: all operations, in moment order. -/
def Circuit.all_operations (c : Circuit) : List Operation :=
  (c.moments.map (fun m => m.operations)).flatten

/-- Source `circuit.all_qubits()`: the distinct qubits touched by the circuit
(a Python set; only its cardinality is used, so a deduplicated list
suffices). -/
def Circuit.all_qubits (c : Circuit) : List Qubit :=
  ((c.all_operations.map (fun op => op.qubits)).flatten).dedup

/-! Section: Opaque external objects carried inside parameter dictionaries -/

/-- An extrapolation-factory object (`RichardsonFactory`, `LinearFactory`,
...): opaque except for its class name and
`get_scale_factors().tolist()`. -/
structure Factory where
  className : String
  scaleFactors : List Rat
deriving DecidableEq

/-- Source `factory.get_scale_factors().tolist()`. -/
def Factory.get_scale_factors (f : Factory) : List Rat :=
  f.scaleFactors

/-- A Python function object (e.g. a folding function): opaque except for its
`__name__`. -/
structure PyFunc where
  name : String
deriving DecidableEq

/-- Source `mitiq.zne.scaling.fold_global`. -/
def fold_global : PyFunc := ⟨"fold_global"⟩

/-- Source `mitiq.zne.scaling.fold_gates_at_random`. -/
def fold_gates_at_random : PyFunc := ⟨"fold_gates_at_random"⟩

/-- Source `RichardsonFactory(scale_factors)`. -/
def RichardsonFactory (scaleFactors : List Rat) : Factory :=
  ⟨"RichardsonFactory", scaleFactors⟩

/-- Source `LinearFactory(scale_factors)`. -/
def LinearFactory (scaleFactors : List Rat) : Factory :=
  ⟨"LinearFactory", scaleFactors⟩

/-- A Python value as it appears in the dictionaries this module builds and
consumes: ints (all integers in the module are non-negative ids and counts),
strings, probability distributions, lists of floats (exactly-representable
scale factors, embedded as rationals), circuits, factory objects and
function objects. -/
inductive Value where
  | vnat (n : Nat)
  | vstr (s : String)
  | vdist (d : List (String × Rat))
  | vratList (l : List Rat)
  | vcircuit (c : Circuit)
  | vfactory (f : Factory)
  | vfunc (f : PyFunc)
deriving DecidableEq

abbrev PyDict := List (String × Value)

/-- Keyword-argument dictionaries (`**kwargs`). -/
abbrev KwArgs := PyDict

/-! Section: MitigationTechnique -/

/-- Source `class MitigationTechnique(Enum): ZNE = auto(); PEC = auto();
RAW = auto()`. -/
inductive MitigationTechnique where
  | ZNE
  | PEC
  | RAW
deriving DecidableEq

/-- The `.name` of an enum member. -/
def MitigationTechnique.name : MitigationTechnique → String
  | .ZNE => "ZNE"
  | .PEC => "PEC"
  | .RAW => "RAW"

/-- Source `MitigationTechnique[key]`: member lookup by name, `KeyError` when the
name matches no member. -/
def MitigationTechnique.fromName (key : String) : Except PyError MitigationTechnique :=
  if key = "ZNE" then .ok .ZNE
  else if key = "PEC" then .ok .PEC
  else if key = "RAW" then .ok .RAW
  else .error (.keyError key)

/-- The external mitigation execution functions (`execute_with_zne`,
`execute_with_pec`, `mitiq.raw.execute`), opaque with the stable signature
`(circuit, executor, **kwargs) -> float`.  The executor type `E` and the
result type `R` are abstract. -/
structure MitigationExecutors (E R : Type) where
  execute_with_zne : Circuit → E → KwArgs → R
  execute_with_pec : Circuit → E → KwArgs → R
  execute : Circuit → E → KwArgs → R

/-- Source `MitigationTechnique.mitigation_function`: resolve the enum member to its
execution function. -/
def MitigationTechnique.mitigation_function (ext : MitigationExecutors E R) :
    MitigationTechnique → Circuit → E → KwArgs → R
  | .ZNE => ext.execute_with_zne
  | .PEC => ext.execute_with_pec
  | .RAW => ext.execute

/-! Section: functools.partial -/

/-- The value `functools.partial(func, **keywords)`: the base function plus
the bound keyword arguments. -/
structure PyBound (E R : Type) where
  func : Circuit → E → KwArgs → R
  keywords : KwArgs

/-- Merging bound keywords with call-time keywords,
`newkeywords = {**self.keywords, **kwargs}` (call-time bindings override
bound ones). -/
def mergeKw (bound callsite : KwArgs) : KwArgs :=
  callsite.foldl (fun d kv => insertD d kv.1 kv.2) bound

/-- Calling a partially-applied function on `(circuit, executor, **kwargs)`. -/
def PyBound.call (p : PyBound E R) (c : Circuit) (ex : E) (kwargs : KwArgs) : R :=
  p.func c ex (mergeKw p.keywords kwargs)

/-! Section: BenchmarkProblem -/

/-- Source `@dataclass class BenchmarkProblem`: a generated circuit together with
its type tag and known ideal output distribution. -/
structure BenchmarkProblem where
  id : Nat
  circuit : Circuit
  type : String
  ideal_distribution : List (String × Rat)
deriving DecidableEq

/-- Source `len(self.circuit.all_qubits())`. -/
def BenchmarkProblem.num_qubits (p : BenchmarkProblem) : Nat :=
  p.circuit.all_qubits.length

/-- Source `len(self.circuit)`. -/
def BenchmarkProblem.circuit_depth (p : BenchmarkProblem) : Nat :=
  p.circuit.moments.length

/-- Source `sum(len(op.qubits) > 1 for op in self.circuit.all_operations())`. -/
def BenchmarkProblem.two_qubit_gate_count (p : BenchmarkProblem) : Nat :=
  p.circuit.all_operations.countP (fun op => op.qubits.length > 1)

/-- Source `dataclasses.asdict(self)`: the declared fields, in declaration order. -/
def BenchmarkProblem.asdict (p : BenchmarkProblem) : PyDict :=
  [("id", .vnat p.id), ("circuit", .vcircuit p.circuit),
   ("type", .vstr p.type), ("ideal_distribution", .vdist p.ideal_distribution)]

/-- Source `BenchmarkProblem.to_dict`: the dataclass fields without the circuit,
plus the three derived metrics. -/
def BenchmarkProblem.to_dict (p : BenchmarkProblem) : PyDict :=
  let base := p.asdict
  let base := eraseKeyD base "circuit"
  let base := insertD base "num_qubits" (.vnat p.num_qubits)
  let base := insertD base "circuit_depth" (.vnat p.circuit_depth)
  insertD base "two_qubit_gate_count" (.vnat p.two_qubit_gate_count)

/-! Section: Strategy -/

/-- Source `@dataclass class Strategy`: a mitigation technique bound to concrete
parameters. -/
structure Strategy where
  id : Nat
  technique : MitigationTechnique
  technique_params : PyDict
deriving DecidableEq

/-- Source `Strategy.mitigation_function`:
`partial(self.technique.mitigation_function, **self.technique_params)`. -/
def Strategy.mitigation_function (ext : MitigationExecutors E R) (s : Strategy) :
    PyBound E R :=
  ⟨s.technique.mitigation_function ext, s.technique_params⟩

/-- Source `Strategy.to_dict`: `{"id": ..., "technique": ...}`, extended for `ZNE`
with the factory class name, its scale factors and the folding function's
name.  The dictionary lookups and attribute accesses of the `ZNE` branch can
raise, which the Python code lets propagate. -/
def Strategy.to_dict (s : Strategy) : Except PyError PyDict :=
  let summary : PyDict := [("id", .vnat s.id), ("technique", .vstr s.technique.name)]
  if s.technique = .ZNE then
    match lookupD s.technique_params "factory" with
    | some (.vfactory inference_func) =>
      let summary := insertD summary "factory" (.vstr inference_func.className)
      let summary := insertD summary "scale_factors" (.vratList inference_func.get_scale_factors)
      match lookupD s.technique_params "scale_noise" with
      | some (.vfunc scale_noise) =>
        .ok (insertD summary "scale_method" (.vstr scale_noise.name))
      | some _ => .error .typeError
      | none => .error (.keyError "scale_noise")
    | some _ => .error .typeError
    | none => .error (.keyError "factory")
  else
    .ok summary

/-- Source `DefaultStrategy = Strategy(0, MitigationTechnique.RAW, {})`. -/
def DefaultStrategy : Strategy := ⟨0, .RAW, []⟩

/-! Section: External circuit generators

The four benchmark-circuit constructors are external collaborators, opaque
except for their call shapes.  `nx.complete_graph(n)` is determined by its
node count, so the connectivity-graph argument is embedded as that count. -/

/-- Source `networkx.complete_graph(n)`, abstracted by its node count. -/
def nx_complete_graph (n : Nat) : Nat := n

structure Generators where
  generate_ghz_circuit : Nat → Circuit
  generate_rb_circuits : Nat → Nat → List Circuit
  generate_mirror_circuit :
    (nlayers : Nat) → (two_qubit_gate_prob : Rat) →
    (connectivity_graph : Nat) → (seed : Option Nat) → Circuit × List Nat
  generate_quantum_volume_circuit : Nat → Nat → Circuit × List Nat

/-- Python `"c" * n` for a one-character string. -/
def strRepeat (c : Char) (n : Nat) : String :=
  String.mk (List.replicate n c)

/-- The GHZ ideal distribution literal `{"0" * nqubits: 0.5,
"1" * nqubits: 0.5}` (built with Python dict-literal semantics: for
`nqubits = 0` the two keys coincide and the literal has a single entry). -/
def ghzIdeal (nqubits : Nat) : List (String × Rat) :=
  insertD (insertD [] (strRepeat '0' nqubits) (1 / 2)) (strRepeat '1' nqubits) (1 / 2)

/-- The message of the `NotImplementedError` raised on `"qv"`. -/
def qvNotImplementedMsg : String :=
  "quantum volume circuits not yet supported in calibration"

/-- The `ValueError` message naming the offending circuit-type value. -/
def invalidCircuitTypeMsg (circuit_type : String) : String :=
  "invalid value passed for `circuit_types`. Must be " ++
    "one of `ghz`, `rb`, `mirror`, or `qv`, " ++
    "but got " ++ circuit_type ++ "."

/-- The dispatch chain in the body of the `make_problems` loop: from one
circuit-type identifier to the generated circuit and its ideal distribution,
or the exception raised. -/
def genCircuitIdeal (gens : Generators) (nqubits depth : Nat) (seed : Option Nat)
    (circuit_type : String) : Except PyError (Circuit × List (String × Rat)) :=
  if circuit_type = "ghz" then
    let circuit := gens.generate_ghz_circuit nqubits
    .ok (circuit, ghzIdeal nqubits)
  else if circuit_type = "rb" then
    match gens.generate_rb_circuits nqubits depth with
    | [] => .error .indexError
    | circuit :: _ => .ok (circuit, [(strRepeat '0' nqubits, 1)])
  else if circuit_type = "mirror" then
    let mres := gens.generate_mirror_circuit depth 1 (nx_complete_graph nqubits) seed
    let circuit := mres.1
    let bitstring_list := mres.2
    let ideal_bitstring := String.join (bitstring_list.map (fun b => toString b))
    .ok (circuit, [(ideal_bitstring, 1)])
  else if circuit_type = "qv" then
    let _circuit := (gens.generate_quantum_volume_circuit nqubits depth).1
    .error (.notImplementedError qvNotImplementedMsg)
  else
    .error (.valueError (invalidCircuitTypeMsg circuit_type))

/-! Section: Settings -/

/-- Source `class Settings`: raw configuration plus the two id-indexed tables
populated by the `make_*` methods. -/
structure Settings where
  techniques : List MitigationTechnique
  technique_params : List PyDict
  circuit_types : List String
  num_qubits : Nat
  circuit_depth : Nat
  circuit_seed : Option Nat
  strategy_dict : List (Nat × Strategy)
  problem_dict : List (Nat × BenchmarkProblem)
deriving DecidableEq

/-- The technique-name parsing done per strategy dictionary in `__init__`:
`MitigationTechnique[technique["technique"].upper()]`. -/
def parseTechnique (d : PyDict) : Except PyError MitigationTechnique :=
  match lookupD d "technique" with
  | some (.vstr t) => MitigationTechnique.fromName t.toUpper
  | some _ => .error .typeError
  | none => .error (.keyError "technique")

/-- Source `Settings.__init__`: parse the techniques, keep the raw configuration,
start with empty `strategy_dict` and `problem_dict`. -/
def Settings.init (circuit_types : List String) (num_qubits circuit_depth : Nat)
    (strategies : List PyDict) (circuit_seed : Option Nat) :
    Except PyError Settings := do
  let techniques ← strategies.mapM parseTechnique
  .ok ⟨techniques, strategies, circuit_types, num_qubits, circuit_depth,
       circuit_seed, [], []⟩

/-- Source `Settings.get_strategy`: `self.strategy_dict[strategy_id]`. -/
def Settings.get_strategy (s : Settings) (strategy_id : Nat) : Except PyError Strategy :=
  match lookupD s.strategy_dict strategy_id with
  | some strategy => .ok strategy
  | none => .error (.keyErrorNat strategy_id)

/-- The `for i, circuit_type in enumerate(self.circuit_types)` loop of
`make_problems`, with the accumulated result list and the state of
`self.problem_dict` threaded explicitly.  When an iteration raises, the
exception and the dictionary state reached so far are returned. -/
def makeProblemsLoop (gens : Generators) (nqubits depth : Nat) (seed : Option Nat) :
    Nat → List String → List BenchmarkProblem → List (Nat × BenchmarkProblem) →
    Except PyError (List BenchmarkProblem) × List (Nat × BenchmarkProblem)
  | _, [], circuits, pd => (.ok circuits, pd)
  | i, circuit_type :: rest, circuits, pd =>
    match genCircuitIdeal gens nqubits depth seed circuit_type with
    | .error e => (.error e, pd)
    | .ok (circuit, ideal) =>
      let problem : BenchmarkProblem := ⟨i, circuit, circuit_type, ideal⟩
      makeProblemsLoop gens nqubits depth seed (i + 1) rest
        (circuits ++ [problem]) (insertD pd problem.id problem)

/-- Source `Settings.make_problems`, returning the result (list of problems or the
raised exception) together with the post-call `Settings` state. -/
def Settings.make_problems (gens : Generators) (s : Settings) :
    Except PyError (List BenchmarkProblem) × Settings :=
  let r := makeProblemsLoop gens s.num_qubits s.circuit_depth s.circuit_seed
    0 s.circuit_types [] s.problem_dict
  (r.1, { s with problem_dict := r.2 })

/-- The `for i, (technique, params) in enumerate(zip(...))` loop of
`make_strategies`: copy each params dict, delete its `"technique"` key
(`KeyError` when absent), build the `Strategy`, append it and insert it into
`self.strategy_dict`. -/
def makeStrategiesLoop :
    Nat → List (MitigationTechnique × PyDict) → List Strategy → List (Nat × Strategy) →
    Except PyError (List Strategy) × List (Nat × Strategy)
  | _, [], funcs, sd => (.ok funcs, sd)
  | i, (technique, params) :: rest, funcs, sd =>
    if containsKeyD params "technique" then
      let params_copy := eraseKeyD params "technique"
      let strategy : Strategy := ⟨i, technique, params_copy⟩
      makeStrategiesLoop (i + 1) rest (funcs ++ [strategy])
        (insertD sd strategy.id strategy)
    else
      (.error (.keyError "technique"), sd)

/-- Source `Settings.make_strategies`, returning the result together with the
post-call `Settings` state.  `params.copy()` in the source means the raw
configuration dictionaries held in `technique_params` are not written. -/
def Settings.make_strategies (s : Settings) :
    Except PyError (List Strategy) × Settings :=
  let r := makeStrategiesLoop 0 (s.techniques.zip s.technique_params) [] s.strategy_dict
  (r.1, { s with strategy_dict := r.2 })

/-- The module-level `ZNESettings` preset (2 qubits, depth 5, ghz/rb/mirror,
eight ZNE strategies crossing two folding methods with four factories). -/
def ZNESettings : Except PyError Settings :=
  Settings.init ["ghz", "rb", "mirror"] 2 5
    [[("technique", .vstr "zne"), ("scale_noise", .vfunc fold_global),
      ("factory", .vfactory (RichardsonFactory [1, 2, 3]))],
     [("technique", .vstr "zne"), ("scale_noise", .vfunc fold_global),
      ("factory", .vfactory (RichardsonFactory [1, 3, 5]))],
     [("technique", .vstr "zne"), ("scale_noise", .vfunc fold_global),
      ("factory", .vfactory (LinearFactory [1, 2, 3]))],
     [("technique", .vstr "zne"), ("scale_noise", .vfunc fold_global),
      ("factory", .vfactory (LinearFactory [1, 3, 5]))],
     [("technique", .vstr "zne"), ("scale_noise", .vfunc fold_gates_at_random),
      ("factory", .vfactory (RichardsonFactory [1, 2, 3]))],
     [("technique", .vstr "zne"), ("scale_noise", .vfunc fold_gates_at_random),
      ("factory", .vfactory (RichardsonFactory [1, 3, 5]))],
     [("technique", .vstr "zne"), ("scale_noise", .vfunc fold_gates_at_random),
      ("factory", .vfactory (LinearFactory [1, 2, 3]))],
     [("technique", .vstr "zne"), ("scale_noise", .vfunc fold_gates_at_random),
      ("factory", .vfactory (LinearFactory [1, 3, 5]))]]
    none

/-! Section: Proof-support definitions

Closed forms used to state the loop lemmas, and concrete fixtures used to
exercise the theorems on closed inputs. -/

/-- Closed form of the dictionary updates a run of successful loop iterations
performs: insert each generated problem under its id, in order. -/
def insertProblems (pd : List (Nat × BenchmarkProblem)) (ps : List BenchmarkProblem) :
    List (Nat × BenchmarkProblem) :=
  ps.foldl (fun d p => insertD d p.id p) pd

/-- Closed form of the strategies the `make_strategies` loop produces from
position `i` onwards. -/
def stripTechniques (i : Nat) : List (MitigationTechnique × PyDict) → List Strategy
  | [] => []
  | (technique, params) :: rest =>
    ⟨i, technique, eraseKeyD params "technique"⟩ :: stripTechniques (i + 1) rest

/-- A small two-moment circuit fixture. -/
def circA : Circuit := ⟨[⟨[⟨[0, 1]⟩]⟩, ⟨[⟨[0]⟩, ⟨[1]⟩]⟩]⟩

/-- A one-moment circuit fixture. -/
def circB : Circuit := ⟨[⟨[⟨[0]⟩]⟩]⟩

/-- A concrete instantiation of the external circuit generators, used to
exercise the theorems on closed inputs. -/
def testGens : Generators :=
  ⟨fun _ => circA, fun _ _ => [circB], fun _ _ _ _ => (circA, [0, 1]),
   fun _ _ => (circB, [])⟩

/-- A raw strategy-configuration dictionary, as found in `ZNESettings`. -/
def zneParamsExample : PyDict :=
  [("technique", .vstr "zne"), ("scale_noise", .vfunc fold_global),
   ("factory", .vfactory (RichardsonFactory [1, 2, 3]))]

/-- A `Settings` fixture with the three valid circuit types and one ZNE
strategy. -/
def testSettings : Settings :=
  ⟨[.ZNE], [zneParamsExample], ["ghz", "rb", "mirror"], 2, 5, none, [], []⟩

/-- A `Settings` fixture whose circuit types are `ghz` followed by `qv`. -/
def testSettingsGhzQv : Settings := ⟨[], [], ["ghz", "qv"], 2, 5, none, [], []⟩

/-- A `Settings` fixture whose circuit types are `qv` followed by an invalid
identifier. -/
def testSettingsQvFirst : Settings := ⟨[], [], ["qv", "bogus"], 2, 5, none, [], []⟩

/-- A `Settings` fixture whose circuit types are an invalid identifier
followed by `qv`. -/
def testSettingsBogusQv : Settings := ⟨[], [], ["bogus", "qv"], 2, 5, none, [], []⟩

/-- The problems `make_problems` generates for `testGens` and
`testSettings`. -/
def testProbs : List BenchmarkProblem :=
  [⟨0, circA, "ghz", ghzIdeal 2⟩, ⟨1, circB, "rb", [(strRepeat '0' 2, 1)]⟩,
   ⟨2, circA, "mirror", [("01", 1)]⟩]

/-- A ZNE strategy fixture with its `"technique"` key already stripped. -/
def zneStrategyExample : Strategy :=
  ⟨3, .ZNE, [("scale_noise", .vfunc fold_global),
    ("factory", .vfactory (RichardsonFactory [1, 2, 3]))]⟩

/-! Section: Dictionary lemmas -/

lemma lookupD_insertD [DecidableEq α] (d : List (α × β)) (k k' : α) (v : β) :
    lookupD (insertD d k v) k' = if k' = k then some v else lookupD d k' := by
  induction d with
  | nil => simp [insertD, lookupD, eq_comm]
  | cons p rest ih =>
    obtain ⟨a, b⟩ := p
    by_cases hak : a = k
    · subst hak
      by_cases hk : k' = a <;> simp [insertD, lookupD, hk, eq_comm]
    · by_cases hk : a = k'
      · subst hk
        simp [insertD, lookupD, hak]
      · simp [insertD, lookupD, hak, hk, ih]

lemma lookupD_eq_none [DecidableEq α] (d : List (α × β)) (k : α)
    (h : ∀ kv ∈ d, kv.1 ≠ k) : lookupD d k = none := by
  induction d with
  | nil => rfl
  | cons p rest ih =>
    simp only [lookupD]
    rw [if_neg (h p (by simp))]
    exact ih (fun kv hkv => h kv (by simp [hkv]))

lemma mem_insertD [DecidableEq α] (d : List (α × β)) (k : α) (v : β) (kv : α × β)
    (h : kv ∈ insertD d k v) : kv = (k, v) ∨ kv ∈ d := by
  induction d with
  | nil => simp [insertD] at h; simp [h]
  | cons p rest ih =>
    obtain ⟨a, b⟩ := p
    by_cases hak : a = k
    · subst hak
      simp [insertD] at h
      rcases h with h | h
      · simp [h]
      · simp [h]
    · simp [insertD, hak] at h
      rcases h with h | h
      · simp [h]
      · rcases ih h with h' | h'
        · simp [h']
        · simp [h']

lemma containsKeyD_eraseKeyD [DecidableEq α] (d : List (α × β)) (k : α) :
    containsKeyD (eraseKeyD d k) k = false := by
  induction d with
  | nil => rfl
  | cons p rest ih =>
    by_cases h : p.1 = k
    · simp only [eraseKeyD, containsKeyD] at ih ⊢
      simpa [h] using ih
    · simp only [eraseKeyD, containsKeyD] at ih ⊢
      simpa [h] using ih

/-! Section: Lemmas about the make_problems dispatch and loop -/

lemma genCircuitIdeal_ghz (gens : Generators) (nq d : Nat) (sd : Option Nat) :
    genCircuitIdeal gens nq d sd "ghz" =
      .ok (gens.generate_ghz_circuit nq, ghzIdeal nq) := by
  simp [genCircuitIdeal]

lemma genCircuitIdeal_rb (gens : Generators) (nq d : Nat) (sd : Option Nat)
    (c : Circuit) (cs : List Circuit) (h : gens.generate_rb_circuits nq d = c :: cs) :
    genCircuitIdeal gens nq d sd "rb" = .ok (c, [(strRepeat '0' nq, 1)]) := by
  simp [genCircuitIdeal, h]

lemma genCircuitIdeal_mirror (gens : Generators) (nq d : Nat) (sd : Option Nat) :
    genCircuitIdeal gens nq d sd "mirror" =
      .ok ((gens.generate_mirror_circuit d 1 (nx_complete_graph nq) sd).1,
        [(String.join (((gens.generate_mirror_circuit d 1 (nx_complete_graph nq) sd).2).map
            (fun b => toString b)), 1)]) := by
  simp [genCircuitIdeal]

lemma genCircuitIdeal_qv (gens : Generators) (nq d : Nat) (sd : Option Nat) :
    genCircuitIdeal gens nq d sd "qv" =
      .error (.notImplementedError qvNotImplementedMsg) := by
  simp [genCircuitIdeal]

lemma genCircuitIdeal_invalid (gens : Generators) (nq d : Nat) (sd : Option Nat)
    (ct : String) (h1 : ct ≠ "ghz") (h2 : ct ≠ "rb") (h3 : ct ≠ "mirror") (h4 : ct ≠ "qv") :
    genCircuitIdeal gens nq d sd ct = .error (.valueError (invalidCircuitTypeMsg ct)) := by
  simp [genCircuitIdeal, h1, h2, h3, h4]

lemma genCircuitIdeal_valid_ok (gens : Generators) (nq d : Nat) (sd : Option Nat)
    (ct : String) (hv : ct = "ghz" ∨ ct = "rb" ∨ ct = "mirror")
    (hrb : gens.generate_rb_circuits nq d ≠ []) :
    ∃ c ideal, genCircuitIdeal gens nq d sd ct = .ok (c, ideal) := by
  rcases hv with h | h | h
  · exact ⟨_, _, h ▸ genCircuitIdeal_ghz gens nq d sd⟩
  · obtain ⟨c, cs, hc⟩ : ∃ c cs, gens.generate_rb_circuits nq d = c :: cs := by
      cases hcs : gens.generate_rb_circuits nq d with
      | nil => exact absurd hcs hrb
      | cons c cs => exact ⟨c, cs, rfl⟩
    exact ⟨_, _, h ▸ genCircuitIdeal_rb gens nq d sd c cs hc⟩
  · exact ⟨_, _, h ▸ genCircuitIdeal_mirror gens nq d sd⟩

/-- Running the loop over a list of valid circuit types (`ghz`, `rb`,
`mirror`) consumes it entirely: the generated problems are appended to the
accumulator, inserted into the dictionary in order, and carry consecutive
ids. -/
lemma makeProblemsLoop_append (gens : Generators) (nq d : Nat) (sd : Option Nat)
    (hrb : gens.generate_rb_circuits nq d ≠ []) :
    ∀ (pre : List String), (∀ ct ∈ pre, ct = "ghz" ∨ ct = "rb" ∨ ct = "mirror") →
    ∀ (i : Nat) (acc : List BenchmarkProblem) (pd : List (Nat × BenchmarkProblem))
      (cts : List String),
    ∃ ps : List BenchmarkProblem,
      makeProblemsLoop gens nq d sd i (pre ++ cts) acc pd =
        makeProblemsLoop gens nq d sd (i + pre.length) cts (acc ++ ps)
          (insertProblems pd ps) ∧
      ps.length = pre.length ∧
      (∀ (j : Nat) (p : BenchmarkProblem), ps.get? j = some p → p.id = i + j) := by
  intro pre
  induction pre with
  | nil =>
    intro _ i acc pd cts
    exact ⟨[], by simp [insertProblems], rfl, by simp⟩
  | cons ct pre' ih =>
    intro hv i acc pd cts
    obtain ⟨c, ideal, hgen⟩ :=
      genCircuitIdeal_valid_ok gens nq d sd ct (hv ct (by simp)) hrb
    obtain ⟨ps', hloop, hlen, hids⟩ :=
      ih (fun x hx => hv x (by simp [hx])) (i + 1) (acc ++ [⟨i, c, ct, ideal⟩])
        (insertD pd i ⟨i, c, ct, ideal⟩) cts
    refine ⟨⟨i, c, ct, ideal⟩ :: ps', ?_, by simp [hlen], ?_⟩
    · have hone : makeProblemsLoop gens nq d sd i ((ct :: pre') ++ cts) acc pd =
        makeProblemsLoop gens nq d sd (i + 1) (pre' ++ cts)
          (acc ++ [⟨i, c, ct, ideal⟩]) (insertD pd i ⟨i, c, ct, ideal⟩) := by
        simp [makeProblemsLoop, hgen]
      rw [hone, hloop]
      have harr : i + (pre'.length + 1) = i + 1 + pre'.length := by omega
      simp [insertProblems, List.length_cons, ← harr]
    · intro j p hp
      cases j with
      | zero => simp at hp; simp [← hp]
      | succ j' =>
        simp only [List.get?_cons_succ] at hp
        have := hids j' p hp
        omega

/-- Looking up a key after inserting problems with consecutive ids
`i, i+1, ...`. -/
lemma lookupD_insertProblems :
    ∀ (ps : List BenchmarkProblem) (i : Nat) (pd : List (Nat × BenchmarkProblem)),
    (∀ (j : Nat) (p : BenchmarkProblem), ps.get? j = some p → p.id = i + j) →
    ∀ k, lookupD (insertProblems pd ps) k =
      if i ≤ k ∧ k - i < ps.length then ps.get? (k - i) else lookupD pd k := by
  intro ps
  induction ps with
  | nil => intro i pd _ k; simp [insertProblems]
  | cons p rest ih =>
    intro i pd hids k
    have hp : p.id = i := by simpa using hids 0 p rfl
    have hrest : ∀ (j : Nat) (q : BenchmarkProblem), rest.get? j = some q →
        q.id = (i + 1) + j := by
      intro j q hq
      have := hids (j + 1) q (by simpa using hq)
      omega
    have hstep : insertProblems pd (p :: rest) =
        insertProblems (insertD pd p.id p) rest := rfl
    rw [hstep, ih (i + 1) (insertD pd p.id p) hrest k]
    by_cases hki : k = i
    · subst hki
      rw [if_neg (by omega), if_pos ⟨le_refl _, by simp⟩]
      rw [lookupD_insertD, if_pos hp.symm]
      simp
    · by_cases hlow : i ≤ k
      · have hgt : i + 1 ≤ k := by omega
        by_cases hin : k - (i + 1) < rest.length
        · rw [if_pos ⟨hgt, hin⟩, if_pos ⟨hlow, by simp; omega⟩]
          have hsub : k - i = (k - (i + 1)) + 1 := by omega
          rw [hsub]
          simp
        · rw [if_neg (by omega), if_neg (by simp; omega)]
          rw [lookupD_insertD, if_neg (by omega)]
      · rw [if_neg (by omega), if_neg (by omega)]
        rw [lookupD_insertD, if_neg (by omega)]

/-- Inversion: when the loop returns normally, every circuit type was
dispatched successfully and the returned list extends the accumulator with
one problem per type, carrying consecutive ids. -/
lemma makeProblemsLoop_ok (gens : Generators) (nq d : Nat) (sd : Option Nat) :
    ∀ (cts : List String) (i : Nat) (acc : List BenchmarkProblem)
      (pd pd' : List (Nat × BenchmarkProblem)) (probs : List BenchmarkProblem),
    makeProblemsLoop gens nq d sd i cts acc pd = (.ok probs, pd') →
    probs.length = acc.length + cts.length ∧
    (∀ k, k < acc.length → probs.get? k = acc.get? k) ∧
    (∀ (j : Nat) (ct : String), cts.get? j = some ct →
      ∃ c ideal, genCircuitIdeal gens nq d sd ct = .ok (c, ideal) ∧
        probs.get? (acc.length + j) = some ⟨i + j, c, ct, ideal⟩) := by
  intro cts
  induction cts with
  | nil =>
    intro i acc pd pd' probs h
    simp only [makeProblemsLoop, Prod.mk.injEq] at h
    obtain ⟨h1, _⟩ := h
    cases h1
    exact ⟨by simp, fun k _ => rfl, by simp⟩
  | cons ct rest ih =>
    intro i acc pd pd' probs h
    simp only [makeProblemsLoop] at h
    cases hgen : genCircuitIdeal gens nq d sd ct with
    | error e => rw [hgen] at h; simp at h
    | ok ci =>
      obtain ⟨c, ideal⟩ := ci
      rw [hgen] at h
      simp only at h
      obtain ⟨hlen, hpre, hrest⟩ := ih (i + 1) (acc ++ [⟨i, c, ct, ideal⟩])
        (insertD pd i ⟨i, c, ct, ideal⟩) pd' probs h
      refine ⟨by simp only [List.length_append, List.length_cons,
        List.length_nil] at hlen ⊢; omega, ?_, ?_⟩
      · intro k hk
        rw [hpre k (by simp; omega)]
        simp only [List.get?_eq_getElem?]
        exact List.getElem?_append_left hk
      · intro j ct' hct'
        cases j with
        | zero =>
          simp only [List.get?_cons_zero] at hct'
          cases hct'
          refine ⟨c, ideal, hgen, ?_⟩
          simp only [Nat.add_zero]
          rw [hpre acc.length (by simp)]
          simp only [List.get?_eq_getElem?]
          exact List.getElem?_concat_length acc ⟨i, c, ct, ideal⟩
        | succ j' =>
          simp only [List.get?_cons_succ] at hct'
          obtain ⟨c', ideal', hgen', hprobs⟩ := hrest j' ct' hct'
          refine ⟨c', ideal', hgen', ?_⟩
          have harr : acc.length + (j' + 1) =
              (acc ++ [(⟨i, c, ct, ideal⟩ : BenchmarkProblem)]).length + j' := by
            simp; omega
          have harr2 : i + (j' + 1) = (i + 1) + j' := by omega
          rw [harr, harr2]
          exact hprobs

/-! Section: Lemmas about the GHZ ideal-distribution literal -/

lemma strRepeat_length (c : Char) (n : Nat) : (strRepeat c n).length = n := by
  simp [strRepeat, String.length]

lemma strRepeat_ne (n : Nat) (hn : 1 ≤ n) : strRepeat '0' n ≠ strRepeat '1' n := by
  cases n with
  | zero => omega
  | succ m =>
    intro h
    have hdata : ('0' :: List.replicate m '0') = ('1' :: List.replicate m '1') := by
      simpa [strRepeat, List.replicate] using congrArg String.data h
    exact absurd (List.cons.inj hdata).1 (by decide)

/-- For at least one qubit the GHZ dict literal has its two distinct keys in
insertion order. -/
lemma ghzIdeal_pos (n : Nat) (hn : 1 ≤ n) :
    ghzIdeal n = [(strRepeat '0' n, 1 / 2), (strRepeat '1' n, 1 / 2)] := by
  simp [ghzIdeal, insertD, strRepeat_ne n hn]

lemma ghzIdeal_keys_length (n : Nat) :
    ∀ kv ∈ ghzIdeal n, kv.1.length = n := by
  intro kv hkv
  cases n with
  | zero =>
    have : ghzIdeal 0 = [("", 1 / 2)] := rfl
    rw [this] at hkv
    simp at hkv
    simp [hkv]
  | succ m =>
    rw [ghzIdeal_pos (m + 1) (by omega)] at hkv
    simp at hkv
    rcases hkv with h | h <;> simp [h, strRepeat_length]

/-! Section: Lemmas about the make_strategies loop -/

lemma makeStrategiesLoop_spec :
    ∀ (l : List (MitigationTechnique × PyDict)) (i : Nat) (acc : List Strategy)
      (sd : List (Nat × Strategy)),
    (∀ td ∈ l, containsKeyD td.2 "technique" = true) →
    makeStrategiesLoop i l acc sd =
      (.ok (acc ++ stripTechniques i l),
       (stripTechniques i l).foldl (fun d st => insertD d st.id st) sd) := by
  intro l
  induction l with
  | nil => intro i acc sd _; simp [makeStrategiesLoop, stripTechniques]
  | cons td rest ih =>
    intro i acc sd h
    obtain ⟨technique, params⟩ := td
    have hc : containsKeyD params "technique" = true :=
      h (technique, params) (List.mem_cons_self _ _)
    simp only [makeStrategiesLoop, hc, if_pos]
    have h' : ∀ td ∈ rest, containsKeyD td.2 "technique" = true := by
      intro td htd
      exact h td (List.mem_cons_of_mem _ htd)
    rw [ih (i + 1) _ _ h']
    simp [stripTechniques]

lemma stripTechniques_no_technique (l : List (MitigationTechnique × PyDict)) :
    ∀ (i : Nat) (st : Strategy), st ∈ stripTechniques i l →
      containsKeyD st.technique_params "technique" = false := by
  induction l with
  | nil => intro i st h; simp [stripTechniques] at h
  | cons td rest ih =>
    intro i st h
    simp only [stripTechniques, List.mem_cons] at h
    rcases h with h | h
    · subst h
      exact containsKeyD_eraseKeyD td.2 "technique"
    · exact ih (i + 1) st h

lemma mem_foldl_insert_strategies :
    ∀ (sts : List Strategy) (sd : List (Nat × Strategy)) (kv : Nat × Strategy),
    kv ∈ sts.foldl (fun d st => insertD d st.id st) sd →
    kv ∈ sd ∨ kv.2 ∈ sts := by
  intro sts
  induction sts with
  | nil => intro sd kv h; exact Or.inl h
  | cons st rest ih =>
    intro sd kv h
    rcases ih (insertD sd st.id st) kv h with h' | h'
    · rcases mem_insertD sd st.id st kv h' with h2 | h2
      · right; simp [h2]
      · exact Or.inl h2
    · right; simp [h']

/-! Section: Claim theorems -/

/-- Claim C1: for every list of valid circuit-type identifiers (each one of
`ghz`, `rb`, `mirror`), `Settings.make_problems()` returns a list whose
length equals the length of `circuit_types`, the problem at position `i` has
`id = i`, and `problem_dict` afterwards contains exactly the keys
`0..len-1`, mapping each id to the problem generated at that position, in
input order (stated as: looking any key up in the dictionary agrees with
indexing into the returned list).  The two extra assumptions are environment
assumptions: the opaque external `generate_rb_circuits` returns a non-empty
list (its contract), and the keys already in `problem_dict` are below the
length (true of every state the class itself can produce: the constructor
leaves the dictionary empty and re-runs overwrite the same keys). -/
theorem make_problems_c1 (gens : Generators) (s : Settings)
    (hv : ∀ ct ∈ s.circuit_types, ct = "ghz" ∨ ct = "rb" ∨ ct = "mirror")
    (hrb : gens.generate_rb_circuits s.num_qubits s.circuit_depth ≠ [])
    (hpd : ∀ kv ∈ s.problem_dict, kv.1 < s.circuit_types.length) :
    ∃ probs, (Settings.make_problems gens s).1 = .ok probs ∧
      probs.length = s.circuit_types.length ∧
      (∀ (j : Nat) (p : BenchmarkProblem), probs.get? j = some p → p.id = j) ∧
      (∀ k : Nat,
        lookupD (Settings.make_problems gens s).2.problem_dict k = probs.get? k) := by
  obtain ⟨ps, hloop, hlen, hids⟩ :=
    makeProblemsLoop_append gens s.num_qubits s.circuit_depth s.circuit_seed hrb
      s.circuit_types hv 0 [] s.problem_dict []
  rw [List.append_nil] at hloop
  have hids0 : ∀ (j : Nat) (p : BenchmarkProblem), ps.get? j = some p → p.id = j := by
    intro j p hp
    simpa using hids j p hp
  have hr : makeProblemsLoop gens s.num_qubits s.circuit_depth s.circuit_seed 0
      s.circuit_types [] s.problem_dict =
      (.ok ps, insertProblems s.problem_dict ps) := by
    rw [hloop]
    simp [makeProblemsLoop]
  refine ⟨ps, ?_, hlen, hids0, ?_⟩
  · show (makeProblemsLoop gens s.num_qubits s.circuit_depth s.circuit_seed 0
      s.circuit_types [] s.problem_dict).1 = .ok ps
    rw [hr]
  · intro k
    show lookupD (makeProblemsLoop gens s.num_qubits s.circuit_depth s.circuit_seed 0
      s.circuit_types [] s.problem_dict).2 k = ps.get? k
    rw [hr]
    have hlk := lookupD_insertProblems ps 0 s.problem_dict
      (fun j p hp => by rw [hids0 j p hp]; omega) k
    by_cases hk : k < ps.length
    · rw [if_pos ⟨Nat.zero_le k, by simpa using hk⟩] at hlk
      simpa using hlk
    · rw [if_neg (by simp; omega)] at hlk
      rw [hlk, List.get?_eq_none.mpr (by omega)]
      exact lookupD_eq_none _ _ (fun kv hkv => by have := hpd kv hkv; omega)

/-- Witness for C1 at the concrete generators `testGens` and settings
`testSettings`. -/
theorem make_problems_c1_witness :
    (∀ ct ∈ testSettings.circuit_types, ct = "ghz" ∨ ct = "rb" ∨ ct = "mirror") ∧
    (∃ probs, (Settings.make_problems testGens testSettings).1 = .ok probs ∧
      probs.length = testSettings.circuit_types.length ∧
      (∀ (j : Nat) (p : BenchmarkProblem), probs.get? j = some p → p.id = j) ∧
      (∀ k : Nat,
        lookupD (Settings.make_problems testGens testSettings).2.problem_dict k =
          probs.get? k)) :=
  ⟨by decide, make_problems_c1 testGens testSettings (by decide) (by decide) (by decide)⟩

/-- Claim C2: for every `Strategy` `s` and every circuit and executor,
calling `s.mitigation_function(circuit, executor)` (a `functools.partial`
with no call-time keyword arguments) produces the same result as calling the
technique's raw mitigation function directly with `(circuit, executor)` plus
every key/value pair of `s.technique_params` as keyword arguments. -/
theorem mitigation_function_c2 (E R : Type) (ext : MitigationExecutors E R)
    (s : Strategy) (c : Circuit) (ex : E) :
    (s.mitigation_function ext).call c ex [] =
      s.technique.mitigation_function ext c ex s.technique_params := rfl

/-- Claim C3: for every `Settings` with `num_qubits = n` whose
`circuit_types` has `"ghz"` at position `i`, when `make_problems()` returns
normally the problem generated for position `i` has ideal distribution equal
to the dict literal with keys `"0"*n` and `"1"*n`, each with probability
`0.5` — for `n ≥ 1` literally the two-entry list — and every key has length
`n`.  (For `n = 0` the two keys of the Python dict literal coincide, so the
dict has a single entry; the dict-equality reading of the claim still
holds.) -/
theorem ghz_problem_c3 (gens : Generators) (s : Settings)
    (probs : List BenchmarkProblem) (s' : Settings) (i n : Nat)
    (h : Settings.make_problems gens s = (.ok probs, s'))
    (hn : s.num_qubits = n)
    (hi : s.circuit_types.get? i = some "ghz") :
    ∃ p, probs.get? i = some p ∧
      p.ideal_distribution = ghzIdeal n ∧
      (1 ≤ n → p.ideal_distribution =
        [(strRepeat '0' n, 1 / 2), (strRepeat '1' n, 1 / 2)]) ∧
      ∀ kv ∈ p.ideal_distribution, kv.1.length = n := by
  have h1 : (Settings.make_problems gens s).1 = .ok probs := by rw [h]
  have hloopeq : makeProblemsLoop gens s.num_qubits s.circuit_depth s.circuit_seed 0
      s.circuit_types [] s.problem_dict =
      (.ok probs, (makeProblemsLoop gens s.num_qubits s.circuit_depth s.circuit_seed 0
        s.circuit_types [] s.problem_dict).2) :=
    Prod.ext h1 rfl
  obtain ⟨_, _, hrest⟩ := makeProblemsLoop_ok gens s.num_qubits s.circuit_depth
    s.circuit_seed s.circuit_types 0 [] s.problem_dict _ probs hloopeq
  obtain ⟨c, ideal, hgen, hprobs⟩ := hrest i "ghz" hi
  rw [genCircuitIdeal_ghz] at hgen
  have hideal : ideal = ghzIdeal s.num_qubits := by
    cases hgen
    rfl
  subst hideal hn
  refine ⟨_, by simpa using hprobs, rfl, ?_, ?_⟩
  · intro hn1
    exact ghzIdeal_pos _ hn1
  · exact ghzIdeal_keys_length _

/-- Witness for C3 at the concrete run of `make_problems` on `testGens` and
`testSettings` (two qubits, `"ghz"` at position 0). -/
theorem ghz_problem_c3_witness :
    testSettings.circuit_types.get? 0 = some "ghz" ∧
    (∃ p, testProbs.get? 0 = some p ∧
      p.ideal_distribution = ghzIdeal 2 ∧
      (1 ≤ 2 → p.ideal_distribution =
        [(strRepeat '0' 2, 1 / 2), (strRepeat '1' 2, 1 / 2)]) ∧
      ∀ kv ∈ p.ideal_distribution, kv.1.length = 2) :=
  ⟨rfl, ghz_problem_c3 testGens testSettings testProbs
    (Settings.make_problems testGens testSettings).2 0 2 rfl rfl rfl⟩

/-- Counterexample to claim C4 as stated: with circuit types
`["ghz", "qv"]`, `make_problems` does raise the not-implemented error, but
`problem_dict` is NOT left unchanged — the problem generated for the earlier
`"ghz"` position was already inserted before the exception was raised, so
"state unchanged on error, regardless of where `qv` appears" is false. -/
theorem qv_state_c4_counterexample :
    (Settings.make_problems testGens testSettingsGhzQv).1 =
      .error (.notImplementedError qvNotImplementedMsg) ∧
    (Settings.make_problems testGens testSettingsGhzQv).2.problem_dict ≠
      testSettingsGhzQv.problem_dict :=
  ⟨rfl, by decide⟩

/-- Claim C4 (amended): for every `Settings` whose `circuit_types` has
`"qv"` at position 0, `make_problems()` fails with the not-implemented error
and the `Settings` state — in particular `problem_dict` — is left unchanged:
the failing iteration itself inserts nothing (only the generated circuit is
discarded).  When `"qv"` appears later, the problems generated for the
earlier positions remain inserted. -/
theorem qv_state_c4 (gens : Generators) (s : Settings) (rest : List String)
    (h : s.circuit_types = "qv" :: rest) :
    Settings.make_problems gens s =
      (.error (.notImplementedError qvNotImplementedMsg), s) := by
  show (_, _) = _
  rw [Prod.ext_iff]
  constructor
  · show (makeProblemsLoop gens s.num_qubits s.circuit_depth s.circuit_seed 0
      s.circuit_types [] s.problem_dict).1 = _
    rw [h]
    simp [makeProblemsLoop, genCircuitIdeal_qv]
  · show ({ s with problem_dict := (makeProblemsLoop gens s.num_qubits s.circuit_depth
      s.circuit_seed 0 s.circuit_types [] s.problem_dict).2 } : Settings) = s
    have : (makeProblemsLoop gens s.num_qubits s.circuit_depth s.circuit_seed 0
        s.circuit_types [] s.problem_dict).2 = s.problem_dict := by
      rw [h]
      simp [makeProblemsLoop, genCircuitIdeal_qv]
    rw [this]

/-- Witness for the amended C4 at the concrete settings with circuit types
`["qv", "bogus"]`. -/
theorem qv_state_c4_witness :
    Settings.make_problems testGens testSettingsQvFirst =
      (.error (.notImplementedError qvNotImplementedMsg), testSettingsQvFirst) :=
  qv_state_c4 testGens testSettingsQvFirst ["bogus"] rfl

/-- Counterexample to claim C5 as stated: with circuit types
`["bogus", "qv"]` the list contains `"qv"`, yet `make_problems` does not
raise the not-implemented error — the invalid identifier `"bogus"` is
dispatched first and raises the configuration `ValueError` instead. -/
theorem qv_error_c5_counterexample :
    "qv" ∈ testSettingsBogusQv.circuit_types ∧
    raisedNotImplementedError
      (Settings.make_problems testGens testSettingsBogusQv).1 = false :=
  ⟨by decide, rfl⟩

/-- Claim C5 (amended): for every `Settings` whose `circuit_types` contains
`"qv"` with only valid identifiers (`ghz`, `rb`, `mirror`) before it,
`make_problems()` raises the not-implemented error (for every qubit count
and depth, the external generators being arbitrary); and whenever `"qv"` is
configured at any position, `make_problems` never returns normally (though
an earlier entry may raise a different exception first). -/
theorem qv_error_c5 (gens : Generators) (s : Settings) (pre rest : List String)
    (h : s.circuit_types = pre ++ "qv" :: rest)
    (hpre : ∀ ct ∈ pre, ct = "ghz" ∨ ct = "rb" ∨ ct = "mirror")
    (hrb : gens.generate_rb_circuits s.num_qubits s.circuit_depth ≠ []) :
    (Settings.make_problems gens s).1 =
      .error (.notImplementedError qvNotImplementedMsg) ∧
    ∀ (gens' : Generators) (t : Settings) (probs : List BenchmarkProblem),
      "qv" ∈ t.circuit_types → (Settings.make_problems gens' t).1 ≠ .ok probs := by
  constructor
  · obtain ⟨ps, hloop, _, _⟩ :=
      makeProblemsLoop_append gens s.num_qubits s.circuit_depth s.circuit_seed hrb
        pre hpre 0 [] s.problem_dict ("qv" :: rest)
    show (makeProblemsLoop gens s.num_qubits s.circuit_depth s.circuit_seed 0
      s.circuit_types [] s.problem_dict).1 = _
    rw [h, hloop]
    simp [makeProblemsLoop, genCircuitIdeal_qv]
  · intro gens' t probs hqv hok
    have hloopeq : makeProblemsLoop gens' t.num_qubits t.circuit_depth t.circuit_seed 0
        t.circuit_types [] t.problem_dict =
        (.ok probs, (makeProblemsLoop gens' t.num_qubits t.circuit_depth t.circuit_seed 0
          t.circuit_types [] t.problem_dict).2) :=
      Prod.ext hok rfl
    obtain ⟨_, _, hrest⟩ := makeProblemsLoop_ok gens' t.num_qubits t.circuit_depth
      t.circuit_seed t.circuit_types 0 [] t.problem_dict _ probs hloopeq
    obtain ⟨j, hj⟩ := List.get?_of_mem hqv
    obtain ⟨c, ideal, hgen, _⟩ := hrest j "qv" hj
    rw [genCircuitIdeal_qv] at hgen
    cases hgen

/-- Witness for the amended C5 at the concrete settings with circuit types
`["ghz", "qv"]`. -/
theorem qv_error_c5_witness :
    (∀ ct ∈ ["ghz"], ct = "ghz" ∨ ct = "rb" ∨ ct = "mirror") ∧
    ((Settings.make_problems testGens testSettingsGhzQv).1 =
      .error (.notImplementedError qvNotImplementedMsg) ∧
     ∀ (gens' : Generators) (t : Settings) (probs : List BenchmarkProblem),
      "qv" ∈ t.circuit_types → (Settings.make_problems gens' t).1 ≠ .ok probs) :=
  ⟨by decide, qv_error_c5 testGens testSettingsGhzQv ["ghz"] [] rfl (by decide) (by decide)⟩

/-- Counterexample to claim C6 as stated: with circuit types
`["qv", "bogus"]` the list contains the invalid identifier `"bogus"`, yet
`make_problems` does not raise the configuration `ValueError` — the `"qv"`
entry is dispatched first and raises the not-implemented error instead. -/
theorem invalid_type_c6_counterexample :
    "bogus" ∈ testSettingsQvFirst.circuit_types ∧
    ("bogus" ≠ "ghz" ∧ "bogus" ≠ "rb" ∧ "bogus" ≠ "mirror" ∧ "bogus" ≠ "qv") ∧
    raisedValueError (Settings.make_problems testGens testSettingsQvFirst).1 = false :=
  ⟨by decide, by decide, rfl⟩

/-- Claim C6 (amended): for every `Settings` whose `circuit_types` contains
an identifier outside `{ghz, rb, mirror, qv}` with only valid identifiers
(`ghz`, `rb`, `mirror`) before its first occurrence, `make_problems()` fails
with the configuration `ValueError` whose message names the offending
identifier value. -/
theorem invalid_type_c6 (gens : Generators) (s : Settings) (pre rest : List String)
    (ct : String) (h : s.circuit_types = pre ++ ct :: rest)
    (hpre : ∀ c ∈ pre, c = "ghz" ∨ c = "rb" ∨ c = "mirror")
    (hct : ct ≠ "ghz" ∧ ct ≠ "rb" ∧ ct ≠ "mirror" ∧ ct ≠ "qv")
    (hrb : gens.generate_rb_circuits s.num_qubits s.circuit_depth ≠ []) :
    (Settings.make_problems gens s).1 =
      .error (.valueError (invalidCircuitTypeMsg ct)) := by
  obtain ⟨ps, hloop, _, _⟩ :=
    makeProblemsLoop_append gens s.num_qubits s.circuit_depth s.circuit_seed hrb
      pre hpre 0 [] s.problem_dict (ct :: rest)
  show (makeProblemsLoop gens s.num_qubits s.circuit_depth s.circuit_seed 0
    s.circuit_types [] s.problem_dict).1 = _
  rw [h, hloop]
  simp [makeProblemsLoop,
    genCircuitIdeal_invalid gens _ _ _ ct hct.1 hct.2.1 hct.2.2.1 hct.2.2.2]

/-- Witness for the amended C6 at the concrete settings with circuit types
`["bogus", "qv"]`. -/
theorem invalid_type_c6_witness :
    (Settings.make_problems testGens testSettingsBogusQv).1 =
      .error (.valueError (invalidCircuitTypeMsg "bogus")) :=
  invalid_type_c6 testGens testSettingsBogusQv [] ["qv"] "bogus" rfl
    (by decide) (by decide) (by decide)

/-- Claim C7: for every `Settings` whose configured strategy dictionaries
each contain a `"technique"` key, `make_strategies()` succeeds and every
produced `Strategy` has a `technique_params` mapping without the key
`"technique"` (stripped during construction); the invariant holds for every
entry of `strategy_dict` after the call (the second assumption is the same
invariant for the entries already present, which is true of every state the
class itself can produce: the constructor leaves the dictionary empty and
`make_strategies` is the only writer). -/
theorem strip_technique_c7 (s : Settings)
    (h : ∀ d ∈ s.technique_params, containsKeyD d "technique" = true)
    (hinv : ∀ kv ∈ s.strategy_dict,
      containsKeyD kv.2.technique_params "technique" = false) :
    ∃ sts, (Settings.make_strategies s).1 = .ok sts ∧
      (∀ st ∈ sts, containsKeyD st.technique_params "technique" = false) ∧
      ∀ kv ∈ (Settings.make_strategies s).2.strategy_dict,
        containsKeyD kv.2.technique_params "technique" = false := by
  have hz : ∀ td ∈ s.techniques.zip s.technique_params,
      containsKeyD td.2 "technique" = true := by
    intro td htd
    obtain ⟨t, d⟩ := td
    exact h d (List.of_mem_zip htd).2
  have hspec := makeStrategiesLoop_spec (s.techniques.zip s.technique_params)
    0 [] s.strategy_dict hz
  refine ⟨stripTechniques 0 (s.techniques.zip s.technique_params), ?_, ?_, ?_⟩
  · show (makeStrategiesLoop 0 (s.techniques.zip s.technique_params)
      [] s.strategy_dict).1 = _
    rw [hspec]
    simp
  · exact fun st hst => stripTechniques_no_technique _ 0 st hst
  · intro kv hkv
    have hkv2 : kv ∈ (stripTechniques 0 (s.techniques.zip s.technique_params)).foldl
        (fun d st => insertD d st.id st) s.strategy_dict := by
      have heq : (Settings.make_strategies s).2.strategy_dict =
          (makeStrategiesLoop 0 (s.techniques.zip s.technique_params)
            [] s.strategy_dict).2 := rfl
      rw [heq, hspec] at hkv
      exact hkv
    rcases mem_foldl_insert_strategies _ _ kv hkv2 with h' | h'
    · exact hinv kv h'
    · exact stripTechniques_no_technique _ 0 kv.2 h'

/-- Witness for C7 at the concrete settings `testSettings`, whose one
strategy dictionary contains a `"technique"` key. -/
theorem strip_technique_c7_witness :
    (∀ d ∈ testSettings.technique_params, containsKeyD d "technique" = true) ∧
    (∃ sts, (Settings.make_strategies testSettings).1 = .ok sts ∧
      (∀ st ∈ sts, containsKeyD st.technique_params "technique" = false) ∧
      ∀ kv ∈ (Settings.make_strategies testSettings).2.strategy_dict,
        containsKeyD kv.2.technique_params "technique" = false) :=
  ⟨by decide, strip_technique_c7 testSettings (by decide) (by decide)⟩

/-- Claim C8: for every `BenchmarkProblem`, the mapping returned by
`to_dict()` contains no `"circuit"` key, always contains the keys
`num_qubits`, `circuit_depth` and `two_qubit_gate_count` bound to the
corresponding derived metrics, and consists exactly of those together with
the remaining declared attributes `id`, `type` and `ideal_distribution`. -/
theorem problem_to_dict_c8 (p : BenchmarkProblem) :
    lookupD p.to_dict "circuit" = none ∧
    lookupD p.to_dict "num_qubits" = some (.vnat p.num_qubits) ∧
    lookupD p.to_dict "circuit_depth" = some (.vnat p.circuit_depth) ∧
    lookupD p.to_dict "two_qubit_gate_count" = some (.vnat p.two_qubit_gate_count) ∧
    p.to_dict = [("id", .vnat p.id), ("type", .vstr p.type),
      ("ideal_distribution", .vdist p.ideal_distribution),
      ("num_qubits", .vnat p.num_qubits), ("circuit_depth", .vnat p.circuit_depth),
      ("two_qubit_gate_count", .vnat p.two_qubit_gate_count)] :=
  ⟨rfl, rfl, rfl, rfl, rfl⟩

/-- Claim C9: for every `Strategy` with `technique = ZNE` whose
`technique_params` contain a factory with scale factors `[1.0, 2.0, 3.0]`
and a `scale_noise` function named `fold_global`, `to_dict()` returns
exactly the mapping with keys `id`, `technique` (= "ZNE"), `factory` (the
factory's class name), `scale_factors` and `scale_method`; for every
non-ZNE `Strategy`, `to_dict()` returns exactly the two-entry mapping with
`id` and the technique name. -/
theorem strategy_to_dict_c9 :
    (∀ (s : Strategy) (f : Factory) (g : PyFunc),
      s.technique = .ZNE →
      lookupD s.technique_params "factory" = some (.vfactory f) →
      f.scaleFactors = [1, 2, 3] →
      lookupD s.technique_params "scale_noise" = some (.vfunc g) →
      g.name = "fold_global" →
      s.to_dict = .ok [("id", .vnat s.id), ("technique", .vstr "ZNE"),
        ("factory", .vstr f.className), ("scale_factors", .vratList [1, 2, 3]),
        ("scale_method", .vstr "fold_global")]) ∧
    (∀ s : Strategy, s.technique ≠ .ZNE →
      s.to_dict = .ok [("id", .vnat s.id), ("technique", .vstr s.technique.name)]) := by
  constructor
  · intro s f g ht hf hsf hg hn
    simp [Strategy.to_dict, ht, hf, hg, hn, Factory.get_scale_factors, hsf,
      MitigationTechnique.name, insertD]
  · intro s h
    simp [Strategy.to_dict, h]

/-- Witness for C9 at a concrete ZNE strategy (Richardson factory with scale
factors 1, 2, 3 and `fold_global`) and at the non-ZNE `DefaultStrategy`. -/
theorem strategy_to_dict_c9_witness :
    Strategy.to_dict zneStrategyExample = .ok [("id", .vnat 3),
      ("technique", .vstr "ZNE"), ("factory", .vstr "RichardsonFactory"),
      ("scale_factors", .vratList [1, 2, 3]),
      ("scale_method", .vstr "fold_global")] ∧
    Strategy.to_dict DefaultStrategy = .ok [("id", .vnat 0), ("technique", .vstr "RAW")] :=
  ⟨strategy_to_dict_c9.1 zneStrategyExample (RichardsonFactory [1, 2, 3]) fold_global
    rfl rfl rfl rfl rfl,
   strategy_to_dict_c9.2 DefaultStrategy (by decide)⟩

/-- Claim C10: `make_strategies()` copies each configured parameter
dictionary before removing the `"technique"` key, so after the call the raw
strategies configuration held by the `Settings` instance still contains its
`"technique"` keys, unchanged; consequently a second call to
`make_strategies()` on the resulting state succeeds and produces the same
list of strategies — same ids, techniques and `technique_params` — as the
first call. -/
theorem make_strategies_frame_c10 (s : Settings)
    (h : ∀ d ∈ s.technique_params, containsKeyD d "technique" = true) :
    (Settings.make_strategies s).2.technique_params = s.technique_params ∧
    (∀ d ∈ (Settings.make_strategies s).2.technique_params,
      containsKeyD d "technique" = true) ∧
    ∃ sts, (Settings.make_strategies s).1 = .ok sts ∧
      (Settings.make_strategies (Settings.make_strategies s).2).1 = .ok sts := by
  have hz : ∀ td ∈ s.techniques.zip s.technique_params,
      containsKeyD td.2 "technique" = true := by
    intro td htd
    obtain ⟨t, d⟩ := td
    exact h d (List.of_mem_zip htd).2
  refine ⟨rfl, h, stripTechniques 0 (s.techniques.zip s.technique_params), ?_, ?_⟩
  · show (makeStrategiesLoop 0 (s.techniques.zip s.technique_params)
      [] s.strategy_dict).1 = _
    rw [makeStrategiesLoop_spec _ 0 [] s.strategy_dict hz]
    simp
  · show (makeStrategiesLoop 0
      ((Settings.make_strategies s).2.techniques.zip
        (Settings.make_strategies s).2.technique_params)
      [] (Settings.make_strategies s).2.strategy_dict).1 = _
    have hsame : (Settings.make_strategies s).2.techniques.zip
        (Settings.make_strategies s).2.technique_params =
        s.techniques.zip s.technique_params := rfl
    rw [hsame, makeStrategiesLoop_spec _ 0 _ _ hz]
    simp

/-- Witness for C10 at the concrete settings `testSettings`. -/
theorem make_strategies_frame_c10_witness :
    (∀ d ∈ testSettings.technique_params, containsKeyD d "technique" = true) ∧
    ((Settings.make_strategies testSettings).2.technique_params =
      testSettings.technique_params ∧
     (∀ d ∈ (Settings.make_strategies testSettings).2.technique_params,
       containsKeyD d "technique" = true) ∧
     ∃ sts, (Settings.make_strategies testSettings).1 = .ok sts ∧
       (Settings.make_strategies (Settings.make_strategies testSettings).2).1 =
         .ok sts) :=
  ⟨by decide, make_strategies_frame_c10 testSettings (by decide)⟩
